import Mathlib

/-!
Verification of the Coin Change Calculator front-end client.

The source is a single React component (`CoinChangeCalculator`) plus two
display components.  We embed its state record and event handlers as pure
Lean functions: React state updates become explicit state passing, the two
`fetch` calls become parameters describing the outcome the environment
delivers, and JavaScript numbers are modelled as exact rationals (with NaN
and the infinities tracked explicitly where `parseFloat` can produce them).
-/

namespace CoinChange

/-- A JavaScript number as produced by `parseFloat`: NaN, an infinity, or a
finite value modelled as an exact rational. -/
inductive JsNum where
  | nan
  | posInf
  | negInf
  | finite (q : ℚ)
deriving DecidableEq, Repr

/-- Connection status of the health probe (`'checking' | 'connected' |
'disconnected'`). -/
inductive ConnectionStatus where
  | checking
  | connected
  | disconnected
deriving DecidableEq, Repr

/-- One entry of the breakdown returned by the calculate endpoint. -/
structure CoinInfo where
  denomination : ℚ
  count : ℚ
deriving DecidableEq, Repr

/-- Body of a successful calculate response (`CCResponse`). -/
structure CCResponse where
  coins : List CoinInfo
  totalCoins : ℚ
deriving DecidableEq, Repr

/-- Request payload sent to the calculate endpoint (`CCRequest`). -/
structure CCRequest where
  amount : ℚ
  denominations : List ℚ
deriving DecidableEq, Repr

/-- The React state of `CoinChangeCalculator`: one field per `useState`. -/
structure AppState where
  amount : String
  selectedDenominations : List ℚ
  result : Option CCResponse
  error : String
  loading : Bool
  apiUrl : String
  connectionStatus : ConnectionStatus
deriving DecidableEq, Repr

/-- The fixed denomination catalog (`validDenominations`):
`[0.01, 0.05, 0.10, 0.20, 0.50, 1.00, 2.00, 5.00, 10.00, 50.00, 100.00, 1000.00]`,
written with `mkRat` so the exact decimal values compute by `decide`. -/
def validDenominations : List ℚ :=
  [mkRat 1 100, mkRat 5 100, mkRat 10 100, mkRat 20 100, mkRat 50 100,
    1, 2, 5, 10, 50, 100, 1000]

/-- Initial component state: every `useState` initializer. -/
def initialState : AppState :=
  { amount := ""
    selectedDenominations := []
    result := none
    error := ""
    loading := false
    apiUrl := "http://localhost:8080"
    connectionStatus := .checking }

/-- `handleDenominationChange`: when checked, append the denomination and
sort ascending (`[...prev, denomination].sort((a, b) => a - b)`); when
unchecked, filter it out. -/
def handleDenominationChange (denomination : ℚ) (checked : Bool)
    (prev : List ℚ) : List ℚ :=
  if checked then
    List.insertionSort (· ≤ ·) (prev ++ [denomination])
  else
    prev.filter (fun d => d != denomination)

/-- One user-level operation on the denomination selector. -/
inductive SelectorOp where
  | change (denomination : ℚ) (checked : Bool)
  | selectAll
  | clearAll
deriving DecidableEq, Repr

/-- `handleDenominationChange` / `selectAllDenominations` /
`clearAllDenominations` as a single step on the selected list. -/
def applySelectorOp (sel : List ℚ) : SelectorOp → List ℚ
  | .change d c => handleDenominationChange d c sel
  | .selectAll => validDenominations
  | .clearAll => []

/-- Run a sequence of selector operations starting from the empty
selection (the `useState` initial value). -/
def runSelectorOps (ops : List SelectorOp) : List ℚ :=
  ops.foldl applySelectorOp []

/-! ### The `parseFloat` model

`parseFloat` skips leading whitespace, reads an optional sign, then the
longest prefix that is a valid decimal literal (possibly `Infinity`); it
returns NaN when no digits are found, and silently ignores a malformed
trailing exponent part. -/

/-- Whitespace skipped by `parseFloat` before parsing. -/
def isJsSpace (c : Char) : Bool :=
  c == ' ' || c == '\t' || c == '\n' || c == '\r'

/-- Numeric value of a block of decimal digit characters. -/
def digitsVal (ds : List Char) : ℕ :=
  ds.foldl (fun n c => 10 * n + (c.toNat - 48)) 0

/-- Strip an optional leading sign, returning (isNegative, rest). -/
def stripSign : List Char → Bool × List Char
  | '-' :: cs => (true, cs)
  | '+' :: cs => (false, cs)
  | cs => (false, cs)

/-- Parse the optional exponent part after the mantissa, as
(exponentIsNegative, magnitude); a malformed exponent is ignored because
`parseFloat` keeps only the longest valid numeric prefix. -/
def parseExponent : List Char → Bool × ℕ
  | c :: cs =>
    if c == 'e' || c == 'E' then
      let p := stripSign cs
      let ds := p.2.takeWhile Char.isDigit
      if ds = [] then (false, 0) else (p.1, digitsVal ds)
    else (false, 0)
  | [] => (false, 0)

/-- The ECMAScript `parseFloat` applied to the amount text, with the finite
result kept as an exact rational. -/
def jsParseFloat (s : String) : JsNum :=
  let cs0 := s.toList.dropWhile isJsSpace
  let sp := stripSign cs0
  let neg := sp.1
  let cs := sp.2
  if List.isPrefixOf ("Infinity".toList) cs then
    if neg then .negInf else .posInf
  else
    let intDigits := cs.takeWhile Char.isDigit
    let rest1 := cs.dropWhile Char.isDigit
    let fp : List Char × List Char :=
      match rest1 with
      | '.' :: cs1 => (cs1.takeWhile Char.isDigit, cs1.dropWhile Char.isDigit)
      | _ => ([], rest1)
    let fracDigits := fp.1
    let rest2 := fp.2
    if intDigits = [] ∧ fracDigits = [] then .nan
    else
      let ep := parseExponent rest2
      let num := digitsVal intDigits * 10 ^ fracDigits.length + digitsVal fracDigits
      let den := 10 ^ fracDigits.length
      let v : ℚ :=
        if ep.1 then mkRat num (den * 10 ^ ep.2) else mkRat (num * 10 ^ ep.2) den
      .finite (if neg then -v else v)

/-- `isNaN(amountNum)`. -/
def JsNum.isNaN : JsNum → Bool
  | .nan => true
  | _ => false

/-- `amountNum < 0` (false on NaN, as in JavaScript). -/
def JsNum.ltZero : JsNum → Bool
  | .negInf => true
  | .finite q => decide (q < 0)
  | _ => false

/-- `amountNum > 10000` (false on NaN, as in JavaScript). -/
def JsNum.gtMax : JsNum → Bool
  | .posInf => true
  | .finite q => decide (q > 10000)
  | _ => false

/-- The rational value of a finite `JsNum` (only used after the validation
has ruled out NaN and the infinities). -/
def JsNum.val : JsNum → ℚ
  | .finite q => q
  | _ => 0

/-! ### Error message strings of the component -/

/-- Validation message for a missing amount or empty selection. -/
def validationMissingMsg : String :=
  "Please enter an amount and select at least one denomination."

/-- Validation message for a NaN or out-of-range amount. -/
def validationRangeMsg : String :=
  "Please enter a valid amount between 0 and 10000."

/-- Generic fallback when a non-2xx calculate body has no usable message. -/
def calcFallbackMsg : String :=
  "An error occurred while calculating."

/-- CORS-specific transport error of the calculate call. -/
def calcCorsMsg : String :=
  "CORS Error: Unable to connect to API. Please ensure CORS is configured on your server."

/-- Generic transport error of the calculate call. -/
def calcNetworkMsg : String :=
  "Failed to connect to the API. Please check if the server is running."

/-- Health-probe message for a non-2xx response. -/
def healthDownMsg : String :=
  "API is not responding. Please check if the server is running on the correct port."

/-- CORS-specific transport error of the health probe. -/
def healthCorsMsg : String :=
  "CORS Error: Unable to connect to API. Please ensure CORS is configured on your server and it\x27s running on the correct port."

/-- Generic transport error of the health probe. -/
def healthNetworkMsg : String :=
  "Unable to connect to API. Please check if the server is running."

/-- `String.prototype.includes`. -/
def jsIncludes (s pat : String) : Bool :=
  decide (List.IsInfix (pat.toList) (s.toList))

/-- JavaScript `m || d` for a possibly-absent string field: the default is
used when the field is `undefined` or the empty string (both falsy). -/
def jsOrString (m : Option String) (d : String) : String :=
  match m with
  | none => d
  | some t => if t = "" then d else t

/-! ### The health probe (`checkApiHealth`) -/

/-- Outcome the environment delivers to the health probe: an HTTP response
(`ok` is `true` exactly on a 2xx status, the only thing the code reads), or
a thrown exception with its `name` and `message`. -/
inductive HealthOutcome where
  | response (ok : Bool)
  | thrown (name message : String)
deriving DecidableEq, Repr

/-- First action of `checkApiHealth`: `setConnectionStatus('checking')`,
performed before the probe request is issued. -/
def healthStart (s : AppState) : AppState :=
  { s with connectionStatus := .checking }

/-- Remainder of `checkApiHealth` once the probe outcome is known. -/
def healthFinish (s : AppState) (o : HealthOutcome) : AppState :=
  match o with
  | .response true => { s with error := "", connectionStatus := .connected }
  | .response false => { s with error := healthDownMsg, connectionStatus := .disconnected }
  | .thrown n m =>
    { s with
      error :=
        if n = "TypeError" ∧ jsIncludes m ("Failed to fetch") = true then healthCorsMsg
        else healthNetworkMsg
      connectionStatus := .disconnected }

/-- The whole `checkApiHealth` handler for a given probe outcome. -/
def checkApiHealth (s : AppState) (o : HealthOutcome) : AppState :=
  healthFinish (healthStart s) o

/-! ### The calculate handler (`calculateCoins`) -/

/-- Outcome the environment delivers to the calculate call: a 2xx response
whose body parses as a `CCResponse`, a non-2xx response with the `message`
field its body yields when read as an `ErrorResponse` (`none` when the
field is absent), or a thrown exception with its `name` and `message`. -/
inductive CalcOutcome where
  | httpOk (body : CCResponse)
  | httpErr (message : Option String)
  | netErr (name message : String)
deriving DecidableEq, Repr

/-- The synchronous prefix of `calculateCoins`, up to (but not including)
the `fetch` call: local validation, and on success the
`setLoading(true); setError(''); setResult(null)` updates.  Returns the
request that is sent, or `none` when validation rejects and no network
call is made. -/
def startCalculate (s : AppState) : AppState × Option CCRequest :=
  if s.amount = "" ∨ s.selectedDenominations.length = 0 then
    ({ s with error := validationMissingMsg }, none)
  else
    let amountNum := jsParseFloat s.amount
    if amountNum.isNaN || amountNum.ltZero || amountNum.gtMax then
      ({ s with error := validationRangeMsg }, none)
    else
      ({ s with loading := true, error := "", result := none },
        some { amount := amountNum.val, denominations := s.selectedDenominations })

/-- The continuation of `calculateCoins` once the network outcome is
known, including the `finally` clause that resets `loading`. -/
def finishCalculate (s : AppState) (o : CalcOutcome) : AppState :=
  match o with
  | .httpOk body => { s with result := some body, loading := false }
  | .httpErr message =>
    { s with error := jsOrString message calcFallbackMsg, loading := false }
  | .netErr n m =>
    { s with
      error :=
        if n = "TypeError" ∧ jsIncludes m ("Failed to fetch") = true then calcCorsMsg
        else calcNetworkMsg
      loading := false }

/-- The whole `calculateCoins` handler: the boolean reports whether a
network call was initiated. -/
def calculateCoins (s : AppState) (o : CalcOutcome) : AppState × Bool :=
  match startCalculate s with
  | (s1, none) => (s1, false)
  | (s1, some _) => (finishCalculate s1 o, true)

/-- `clearForm`: the Clear All button handler. -/
def clearForm (s : AppState) : AppState :=
  { s with amount := "", selectedDenominations := [], result := none, error := "" }

/-! ### The result renderer (`ResultDisplay`) -/

/-- The total shown by `ResultDisplay` (`result.totalCoins`). -/
def displayedTotal (r : CCResponse) : ℚ :=
  r.totalCoins

/-- The breakdown rows shown by `ResultDisplay`: one row per entry of
`result.coins`, carrying that entry's denomination and count. -/
def displayedRows (r : CCResponse) : List (ℚ × ℚ) :=
  r.coins.map (fun c => (c.denomination, c.count))

/-! ### The event system

The component is single-threaded and event-driven: the async handlers are
split at their `await` points into a start phase and a finish phase, and
we count how many calculate requests (and health probes) have been started
but not finished. -/

/-- `disabled={loading || connectionStatus === 'disconnected'}` on the
Calculate Exchange button. -/
def calculateDisabled (s : AppState) : Bool :=
  s.loading || s.connectionStatus == .disconnected

/-- Component state together with the number of outstanding calculate
requests and the total number of health probes started so far. -/
structure Sys where
  st : AppState
  calcInflight : ℕ
  healthProbes : ℕ
deriving DecidableEq, Repr

/-- The system as mounted, before the mount effect runs. -/
def initSys : Sys :=
  { st := initialState, calcInflight := 0, healthProbes := 0 }

/-- Pressing Calculate Exchange: run the synchronous prefix of
`calculateCoins`; a request becomes outstanding exactly when validation
passes. -/
def calcStartSys (sys : Sys) : Sys :=
  match startCalculate sys.st with
  | (s1, none) => { sys with st := s1 }
  | (s1, some _) => { sys with st := s1, calcInflight := sys.calcInflight + 1 }

/-- The outcome of the outstanding calculate request arrives. -/
def calcFinishSys (sys : Sys) (o : CalcOutcome) : Sys :=
  { sys with st := finishCalculate sys.st o, calcInflight := sys.calcInflight - 1 }

/-- A health probe starts (mount effect or the Refresh button): the status
is reset to `checking` before the request is issued. -/
def healthStartSys (sys : Sys) : Sys :=
  { sys with st := healthStart sys.st, healthProbes := sys.healthProbes + 1 }

/-- The outcome of a health probe arrives. -/
def healthFinishSys (sys : Sys) (o : HealthOutcome) : Sys :=
  { sys with st := healthFinish sys.st o }

/-- Editing the base URL field: `setApiUrl` followed by the
`useEffect(..., [apiUrl])` re-run, which starts exactly one new health
probe.  React bails out when the value is unchanged, so nothing happens
then. -/
def changeApiUrl (sys : Sys) (u : String) : Sys :=
  if u = sys.st.apiUrl then sys
  else healthStartSys { sys with st := { sys.st with apiUrl := u } }

/-- One event of the running component.  `calcPress` is guarded by the
submit button being enabled, and a calculate outcome can only arrive for
an outstanding request. -/
inductive Step : Sys → Sys → Prop where
  | calcPress {sys} (h : calculateDisabled sys.st = false) :
      Step sys (calcStartSys sys)
  | calcRespond {sys} (o : CalcOutcome) (h : 1 ≤ sys.calcInflight) :
      Step sys (calcFinishSys sys o)
  | healthPress {sys} : Step sys (healthStartSys sys)
  | healthRespond {sys} (o : HealthOutcome) : Step sys (healthFinishSys sys o)
  | urlChange {sys} (u : String) (h : u ≠ sys.st.apiUrl) :
      Step sys (changeApiUrl sys u)
  | clearPress {sys} : Step sys { sys with st := clearForm sys.st }
  | selectorChange {sys} (op : SelectorOp) :
      Step sys
        { sys with
          st :=
            { sys.st with
              selectedDenominations :=
                applySelectorOp sys.st.selectedDenominations op } }
  | amountInput {sys} (t : String) :
      Step sys { sys with st := { sys.st with amount := t } }

/-- States the component can actually be in. -/
inductive Reachable : Sys → Prop where
  | init : Reachable initSys
  | step {s s'} : Reachable s → Step s s' → Reachable s'

/-- The system-level invariant behind the single-in-flight guarantee: at
most one calculate request is outstanding, and `loading` is set exactly
while one is. -/
def SysInv (sys : Sys) : Prop :=
  sys.calcInflight ≤ 1 ∧ (sys.st.loading = true ↔ sys.calcInflight = 1)

/-! ### Concrete fixtures used in witnesses -/

/-- The request of the spec's worked example: amount `0.41` with the six
denominations up to one dollar selected. -/
def exampleRequest : CCRequest :=
  { amount := mkRat 41 100
    denominations := [mkRat 1 100, mkRat 5 100, mkRat 10 100, mkRat 20 100, mkRat 50 100, 1] }

/-- The response of the spec's worked example:
`{coins: [{0.20, 2}, {0.01, 1}], totalCoins: 3}`. -/
def exampleResponse : CCResponse :=
  { coins := [{ denomination := mkRat 20 100, count := 2 },
              { denomination := mkRat 1 100, count := 1 }]
    totalCoins := 3 }

/-- A connected state holding the worked example's input, with a stale
error and a stale result pending from an earlier interaction. -/
def exampleState : AppState :=
  { initialState with
    amount := "0.41"
    selectedDenominations :=
      [mkRat 1 100, mkRat 5 100, mkRat 10 100, mkRat 20 100, mkRat 50 100, 1]
    error := "stale error"
    result := some { coins := [{ denomination := 1, count := 1 }], totalCoins := 1 }
    connectionStatus := .connected }

/-- A state with an empty amount (validation must reject) that still shows
the result of an earlier successful request. -/
def staleState : AppState :=
  { initialState with
    amount := ""
    selectedDenominations := [1]
    result := some exampleResponse
    connectionStatus := .connected }

/-! ## Helper lemmas -/

/-- Sanity checks that the `parseFloat` model behaves like the ECMAScript
function on representative inputs. -/
theorem jsParseFloat_checks :
    jsParseFloat "0.41" = .finite (mkRat 41 100) ∧
    jsParseFloat "" = .nan ∧
    jsParseFloat "abc" = .nan ∧
    jsParseFloat "-3" = .finite (-3) ∧
    jsParseFloat "12abc" = .finite 12 ∧
    jsParseFloat " 2.5e2x" = .finite 250 ∧
    jsParseFloat "-Infinity" = .negInf := by
  refine ⟨?_, ?_, ?_, ?_, ?_, ?_, ?_⟩ <;> decide

theorem validDenominations_sorted : List.Sorted (· ≤ ·) validDenominations := by
  decide

theorem applySelectorOp_sorted {sel : List ℚ} (hs : List.Sorted (· ≤ ·) sel)
    (op : SelectorOp) : List.Sorted (· ≤ ·) (applySelectorOp sel op) := by
  cases op with
  | change d c =>
    cases c with
    | true => exact List.sorted_insertionSort _ _
    | false => exact hs.filter _
  | selectAll => exact validDenominations_sorted
  | clearAll => exact List.sorted_nil

theorem startCalculate_none_spec {s : AppState}
    (h : (startCalculate s).2 = none) :
    (startCalculate s).1.amount = s.amount ∧
    (startCalculate s).1.selectedDenominations = s.selectedDenominations ∧
    (startCalculate s).1.result = s.result ∧
    (startCalculate s).1.loading = s.loading ∧
    (startCalculate s).1.apiUrl = s.apiUrl ∧
    (startCalculate s).1.connectionStatus = s.connectionStatus ∧
    ((startCalculate s).1.error = validationMissingMsg ∨
      (startCalculate s).1.error = validationRangeMsg) := by
  simp only [startCalculate] at h ⊢
  split_ifs at h ⊢
  all_goals simp_all

theorem startCalculate_some_spec {s : AppState} {req : CCRequest}
    (h : (startCalculate s).2 = some req) :
    (startCalculate s).1 = { s with loading := true, error := "", result := none } := by
  simp only [startCalculate] at h ⊢
  split_ifs at h ⊢
  all_goals simp_all

theorem calculateCoins_of_none {s : AppState} (o : CalcOutcome)
    (h : (startCalculate s).2 = none) :
    calculateCoins s o = ((startCalculate s).1, false) := by
  cases hE : startCalculate s with
  | mk s1 ro =>
    cases ro with
    | none => simp [calculateCoins, hE]
    | some req => rw [hE] at h; simp at h

theorem calculateCoins_of_some {s : AppState} (o : CalcOutcome) {req : CCRequest}
    (h : (startCalculate s).2 = some req) :
    calculateCoins s o = (finishCalculate (startCalculate s).1 o, true) := by
  cases hE : startCalculate s with
  | mk s1 ro =>
    cases ro with
    | none => rw [hE] at h; simp at h
    | some req => simp [calculateCoins, hE]

/-! ## Claims -/

/-- C2 (counterexample): the raw toggle-on handler is not idempotent; a
second toggle-on of an already selected denomination appends a duplicate
(`[...prev, denomination]` appends unconditionally). -/
theorem toggleOn_twice_not_idempotent :
    handleDenominationChange 1 true (handleDenominationChange 1 true []) ≠
      handleDenominationChange 1 true [] := by
  decide

/-- C2 (amended): applying toggle-on for `d` twice yields a selected list
with the same members as applying it once, but not the same list: the
second application appends a duplicate entry of `d`. -/
theorem toggleOn_mem_idempotent (d : ℚ) (S : List ℚ) (x : ℚ) :
    x ∈ handleDenominationChange d true (handleDenominationChange d true S) ↔
      x ∈ handleDenominationChange d true S := by
  simp [handleDenominationChange]

/-- C3: after every sequence of selector operations (toggle on, toggle
off, select-all, clear-all) starting from the empty selection, the
selected denomination list is in ascending numeric order. -/
theorem selector_ops_sorted (ops : List SelectorOp) :
    List.Sorted (· ≤ ·) (runSelectorOps ops) := by
  unfold runSelectorOps
  suffices h : ∀ sel, List.Sorted (· ≤ ·) sel →
      List.Sorted (· ≤ ·) (ops.foldl applySelectorOp sel) from
    h [] List.sorted_nil
  induction ops with
  | nil => exact fun sel hs => hs
  | cons op ops ih => exact fun sel hs => ih _ (applySelectorOp_sorted hs op)

/-- C4: a 2xx health response sets the connection state to `connected` and
clears the error; a non-2xx response or a thrown transport failure sets it
to `disconnected` with a nonempty message, and every transport-failure
message differs from the non-2xx message. -/
theorem health_probe_outcomes (s : AppState) (n m : String) :
    ((checkApiHealth s (.response true)).connectionStatus = .connected ∧
      (checkApiHealth s (.response true)).error = "") ∧
    ((checkApiHealth s (.response false)).connectionStatus = .disconnected ∧
      (checkApiHealth s (.response false)).error ≠ "") ∧
    ((checkApiHealth s (.thrown n m)).connectionStatus = .disconnected ∧
      (checkApiHealth s (.thrown n m)).error ≠ "" ∧
      (checkApiHealth s (.thrown n m)).error ≠
        (checkApiHealth s (.response false)).error) := by
  have hthrown :
      (checkApiHealth s (.thrown n m)).error = healthCorsMsg ∨
      (checkApiHealth s (.thrown n m)).error = healthNetworkMsg := by
    simp only [checkApiHealth, healthFinish]
    split_ifs
    · exact Or.inl rfl
    · exact Or.inr rfl
  have hdown : (checkApiHealth s (.response false)).error = healthDownMsg := rfl
  refine ⟨⟨rfl, rfl⟩, ⟨rfl, ?_⟩, rfl, ?_, ?_⟩
  · rw [hdown]; decide
  · rcases hthrown with h | h <;> rw [h] <;> decide
  · rw [hdown]
    rcases hthrown with h | h <;> rw [h] <;> decide

/-- C9: the Clear All action resets the amount text, the selected
denominations, the result and the error, and leaves the base URL, the
connection state and the loading flag unchanged. -/
theorem clearForm_frame (s : AppState) :
    (clearForm s).amount = "" ∧
    (clearForm s).selectedDenominations = [] ∧
    (clearForm s).result = none ∧
    (clearForm s).error = "" ∧
    (clearForm s).apiUrl = s.apiUrl ∧
    (clearForm s).connectionStatus = s.connectionStatus ∧
    (clearForm s).loading = s.loading :=
  ⟨rfl, rfl, rfl, rfl, rfl, rfl, rfl⟩

theorem startCalculate_reject {s : AppState}
    (h : s.amount = "" ∨ jsParseFloat s.amount = .nan ∨
      (jsParseFloat s.amount).ltZero = true ∨ (jsParseFloat s.amount).gtMax = true ∨
      s.selectedDenominations = []) :
    (startCalculate s).2 = none := by
  simp only [startCalculate]
  split_ifs with h1 h2
  · rfl
  · rfl
  · exfalso
    simp only [Bool.or_eq_true, not_or] at h2
    rcases h with h | h | h | h | h
    · exact h1 (Or.inl h)
    · exact h2.1.1 (by rw [h]; rfl)
    · exact h2.1.2 h
    · exact h2.2 h
    · exact h1 (Or.inr (by rw [h]; rfl))

/-- C1: whenever the amount text is absent, non-numeric, negative or above
10000, or no denomination is selected, the calculate action performs no
network call and surfaces a validation error message. -/
theorem calc_validation_no_network (s : AppState) (o : CalcOutcome)
    (h : s.amount = "" ∨ jsParseFloat s.amount = .nan ∨
      (jsParseFloat s.amount).ltZero = true ∨ (jsParseFloat s.amount).gtMax = true ∨
      s.selectedDenominations = []) :
    (calculateCoins s o).2 = false ∧
      ((calculateCoins s o).1.error = validationMissingMsg ∨
        (calculateCoins s o).1.error = validationRangeMsg) := by
  have hn := startCalculate_reject h
  rw [calculateCoins_of_none o hn]
  exact ⟨rfl, (startCalculate_none_spec hn).2.2.2.2.2.2⟩

theorem calc_validation_no_network_witness :
    (staleState.amount = "" ∨ jsParseFloat staleState.amount = .nan ∨
      (jsParseFloat staleState.amount).ltZero = true ∨
      (jsParseFloat staleState.amount).gtMax = true ∨
      staleState.selectedDenominations = []) ∧
    ((calculateCoins staleState (.httpOk exampleResponse)).2 = false ∧
      ((calculateCoins staleState (.httpOk exampleResponse)).1.error = validationMissingMsg ∨
        (calculateCoins staleState (.httpOk exampleResponse)).1.error = validationRangeMsg)) :=
  ⟨by decide, calc_validation_no_network staleState (.httpOk exampleResponse) (by decide)⟩

/-- C5 (counterexample): a non-2xx body that parses as a `ServiceError`
whose `message` is the empty string is not surfaced verbatim: the code
falls back to the generic message, because `errorData.message || ...`
treats the empty string like a missing field. -/
theorem calc_error_empty_message_fallback :
    (calculateCoins exampleState (.httpErr (some ""))).1.error = calcFallbackMsg ∧
    (calculateCoins exampleState (.httpErr (some ""))).1.error ≠ "" := by
  constructor <;> decide

/-- C5 (amended): for every non-2xx calculate response whose body parses
as a `ServiceError`, the displayed error is the `message` verbatim when it
is a nonempty string, and the generic fallback when it is absent or empty;
no result is rendered either way. -/
theorem calc_http_error_message (s : AppState) (req : CCRequest) (m : String)
    (h : (startCalculate s).2 = some req) (hm : m ≠ "") :
    (calculateCoins s (.httpErr (some m))).1.error = m ∧
    (calculateCoins s (.httpErr (some m))).1.result = none ∧
    (calculateCoins s (.httpErr none)).1.error = calcFallbackMsg ∧
    (calculateCoins s (.httpErr none)).1.result = none := by
  rw [calculateCoins_of_some (.httpErr (some m)) h,
    calculateCoins_of_some (.httpErr none) h, startCalculate_some_spec h]
  refine ⟨?_, rfl, rfl, rfl⟩
  simp [finishCalculate, jsOrString, hm]

theorem calc_http_error_message_witness :
    (startCalculate exampleState).2 = some exampleRequest ∧
    "Amount must be positive" ≠ "" ∧
    ((calculateCoins exampleState (.httpErr (some "Amount must be positive"))).1.error =
        "Amount must be positive" ∧
      (calculateCoins exampleState (.httpErr (some "Amount must be positive"))).1.result = none ∧
      (calculateCoins exampleState (.httpErr none)).1.error = calcFallbackMsg ∧
      (calculateCoins exampleState (.httpErr none)).1.result = none) :=
  ⟨by decide, by decide,
    calc_http_error_message exampleState exampleRequest ("Amount must be positive")
      (by decide) (by decide)⟩

/-- C6: for every 2xx calculate response whose body parses as a
`ChangeResult`, the displayed state is replaced with that result and the
previous error is cleared; `ResultDisplay` then shows its `totalCoins` and
one breakdown row per coin entry. -/
theorem calc_success_displayed (s : AppState) (req : CCRequest) (r : CCResponse)
    (h : (startCalculate s).2 = some req) :
    (calculateCoins s (.httpOk r)).1.result = some r ∧
    (calculateCoins s (.httpOk r)).1.error = "" ∧
    Option.map displayedTotal (calculateCoins s (.httpOk r)).1.result =
      some (displayedTotal r) ∧
    Option.map displayedRows (calculateCoins s (.httpOk r)).1.result =
      some (displayedRows r) := by
  rw [calculateCoins_of_some (.httpOk r) h, startCalculate_some_spec h]
  exact ⟨rfl, rfl, rfl, rfl⟩

theorem calc_success_displayed_witness :
    (startCalculate exampleState).2 = some exampleRequest ∧
    ((calculateCoins exampleState (.httpOk exampleResponse)).1.result = some exampleResponse ∧
      (calculateCoins exampleState (.httpOk exampleResponse)).1.error = "" ∧
      Option.map displayedTotal (calculateCoins exampleState (.httpOk exampleResponse)).1.result =
        some (displayedTotal exampleResponse) ∧
      Option.map displayedRows (calculateCoins exampleState (.httpOk exampleResponse)).1.result =
        some (displayedRows exampleResponse)) ∧
    displayedTotal exampleResponse = 3 ∧
    displayedRows exampleResponse = [(mkRat 20 100, 2), (mkRat 1 100, 1)] ∧
    (displayedRows exampleResponse).length = 2 :=
  ⟨by decide,
    calc_success_displayed exampleState exampleRequest exampleResponse (by decide),
    by decide, by decide, by decide⟩

/-- C10: when validation fails, `calculateCoins` changes only the error
message — the displayed result, amount text, selection and loading flag
are untouched, so a stale result stays rendered beside the validation
error; once validation passes, the result is cleared to `none` before the
network outcome is known. -/
theorem calc_validation_frame (s : AppState) (o : CalcOutcome) :
    ((startCalculate s).2 = none →
      ((calculateCoins s o).1.result = s.result ∧
        (calculateCoins s o).1.amount = s.amount ∧
        (calculateCoins s o).1.selectedDenominations = s.selectedDenominations ∧
        (calculateCoins s o).1.loading = s.loading)) ∧
    (∀ req : CCRequest, (startCalculate s).2 = some req →
      (startCalculate s).1.result = none) := by
  constructor
  · intro hn
    rw [calculateCoins_of_none o hn]
    obtain ⟨ha, hsel, hres, hload, _⟩ := startCalculate_none_spec hn
    exact ⟨hres, ha, hsel, hload⟩
  · intro req hr
    rw [startCalculate_some_spec hr]

theorem calc_validation_frame_witness :
    ((startCalculate staleState).2 = none ∧
      ((calculateCoins staleState (.httpErr none)).1.result = staleState.result ∧
        (calculateCoins staleState (.httpErr none)).1.amount = staleState.amount ∧
        (calculateCoins staleState (.httpErr none)).1.selectedDenominations =
          staleState.selectedDenominations ∧
        (calculateCoins staleState (.httpErr none)).1.loading = staleState.loading)) ∧
    ((startCalculate exampleState).2 = some exampleRequest ∧
      (startCalculate exampleState).1.result = none) :=
  ⟨⟨by decide, (calc_validation_frame staleState (.httpErr none)).1 (by decide)⟩,
    ⟨by decide, (calc_validation_frame exampleState (.httpErr none)).2 exampleRequest (by decide)⟩⟩

/-- C8: changing the configured base URL starts exactly one new health
probe, whose first action resets the connection state to `checking`, so
the previous probe's connected/disconnected status is not retained while
the new probe is pending. -/
theorem url_change_single_probe (sys : Sys) (u : String) (h : u ≠ sys.st.apiUrl) :
    (changeApiUrl sys u).healthProbes = sys.healthProbes + 1 ∧
    (changeApiUrl sys u).st.connectionStatus = .checking ∧
    (changeApiUrl sys u).st.apiUrl = u ∧
    (changeApiUrl sys u).calcInflight = sys.calcInflight := by
  unfold changeApiUrl
  rw [if_neg h]
  exact ⟨rfl, rfl, rfl, rfl⟩

theorem url_change_single_probe_witness :
    "http://example.org:9090" ≠ initSys.st.apiUrl ∧
    ((changeApiUrl initSys ("http://example.org:9090")).healthProbes =
        initSys.healthProbes + 1 ∧
      (changeApiUrl initSys ("http://example.org:9090")).st.connectionStatus = .checking ∧
      (changeApiUrl initSys ("http://example.org:9090")).st.apiUrl =
        "http://example.org:9090" ∧
      (changeApiUrl initSys ("http://example.org:9090")).calcInflight =
        initSys.calcInflight) :=
  ⟨by decide, url_change_single_probe initSys ("http://example.org:9090") (by decide)⟩

theorem finishCalculate_loading (s : AppState) (o : CalcOutcome) :
    (finishCalculate s o).loading = false := by
  cases o <;> rfl

theorem healthFinish_loading (s : AppState) (o : HealthOutcome) :
    (healthFinish s o).loading = s.loading := by
  cases o with
  | response ok => cases ok <;> rfl
  | thrown n m => rfl

theorem sysInv_init : SysInv initSys := by
  constructor <;> simp [initSys, initialState]

theorem sysInv_step {s s' : Sys} (hs : SysInv s) (hstep : Step s s') : SysInv s' := by
  obtain ⟨hle, hiff⟩ := hs
  cases hstep with
  | calcPress h =>
    have hl : s.st.loading = false := by
      revert h
      unfold calculateDisabled
      cases s.st.loading <;> simp
    have h0 : s.calcInflight = 0 := by
      have h1 : s.calcInflight ≠ 1 := by
        intro he
        have hcon := hiff.mpr he
        rw [hl] at hcon
        exact Bool.false_ne_true hcon
      omega
    unfold calcStartSys
    cases hE : startCalculate s.st with
    | mk s1 ro =>
      cases ro with
      | none =>
        have h2 : (startCalculate s.st).2 = none := by rw [hE]
        have hload : s1.loading = s.st.loading := by
          have hx := (startCalculate_none_spec h2).2.2.2.1
          rwa [hE] at hx
        refine ⟨hle, ?_⟩
        show s1.loading = true ↔ s.calcInflight = 1
        rw [hload, hl, h0]
        simp
      | some req =>
        have h2 : (startCalculate s.st).2 = some req := by rw [hE]
        have hst : s1 = { s.st with loading := true, error := "", result := none } := by
          have hx := startCalculate_some_spec h2
          rwa [hE] at hx
        refine ⟨show s.calcInflight + 1 ≤ 1 by omega, ?_⟩
        show s1.loading = true ↔ s.calcInflight + 1 = 1
        rw [hst, h0]
        simp
  | calcRespond o h =>
    have h1 : s.calcInflight = 1 := le_antisymm hle h
    refine ⟨by simp [calcFinishSys]; omega, ?_⟩
    show (finishCalculate s.st o).loading = true ↔ s.calcInflight - 1 = 1
    rw [finishCalculate_loading, h1]
    simp
  | healthPress => exact ⟨hle, by simpa [healthStartSys, healthStart] using hiff⟩
  | healthRespond o =>
    refine ⟨hle, ?_⟩
    show (healthFinish s.st o).loading = true ↔ s.calcInflight = 1
    rw [healthFinish_loading]
    exact hiff
  | urlChange u h =>
    unfold changeApiUrl
    split_ifs with he
    · exact ⟨hle, hiff⟩
    · exact ⟨hle, by simpa [healthStartSys, healthStart] using hiff⟩
  | clearPress => exact ⟨hle, by simpa [clearForm] using hiff⟩
  | selectorChange op => exact ⟨hle, by simpa using hiff⟩
  | amountInput t => exact ⟨hle, by simpa using hiff⟩

theorem sysInv_reachable {s : Sys} (h : Reachable s) : SysInv s := by
  induction h with
  | init => exact sysInv_init
  | step _ hstep ih => exact sysInv_step ih hstep

/-- C7: in every reachable state at most one calculate request is
outstanding; the submit button is disabled exactly while one is in flight
or the connection is disconnected; and no step can start a new calculate
request unless none is outstanding and the connection is not
disconnected. -/
theorem calc_single_inflight (sys : Sys) (h : Reachable sys) :
    sys.calcInflight ≤ 1 ∧
    (calculateDisabled sys.st = true ↔
      (sys.calcInflight = 1 ∨ sys.st.connectionStatus = .disconnected)) ∧
    (∀ sys', Step sys sys' → sys.calcInflight < sys'.calcInflight →
      sys.calcInflight = 0 ∧ sys.st.connectionStatus ≠ .disconnected) := by
  obtain ⟨hle, hiff⟩ := sysInv_reachable h
  refine ⟨hle, ?_, ?_⟩
  · unfold calculateDisabled
    rw [Bool.or_eq_true]
    constructor
    · rintro (hb | hb)
      · exact Or.inl (hiff.mp hb)
      · exact Or.inr (by simpa using hb)
    · rintro (hb | hb)
      · exact Or.inl (hiff.mpr hb)
      · exact Or.inr (by simpa using hb)
  · intro sys' hstep hlt
    cases hstep with
    | calcPress hdis =>
      simp only [calculateDisabled, Bool.or_eq_false_iff, beq_eq_false_iff_ne] at hdis
      have h1 : sys.calcInflight ≠ 1 := by
        intro he
        have hcon := hiff.mpr he
        rw [hdis.1] at hcon
        exact Bool.false_ne_true hcon
      exact ⟨by omega, hdis.2⟩
    | calcRespond o hge =>
      simp only [calcFinishSys] at hlt
      omega
    | healthPress => simp [healthStartSys] at hlt
    | healthRespond o => simp [healthFinishSys] at hlt
    | urlChange u hu =>
      unfold changeApiUrl at hlt
      split_ifs at hlt
      · omega
      · simp [healthStartSys] at hlt
    | clearPress => simp at hlt
    | selectorChange op => simp at hlt
    | amountInput t => simp at hlt

theorem calc_single_inflight_witness :
    initSys.calcInflight ≤ 1 ∧
    (calculateDisabled initSys.st = true ↔
      (initSys.calcInflight = 1 ∨ initSys.st.connectionStatus = .disconnected)) ∧
    (∀ sys', Step initSys sys' → initSys.calcInflight < sys'.calcInflight →
      initSys.calcInflight = 0 ∧ initSys.st.connectionStatus ≠ .disconnected) :=
  calc_single_inflight initSys Reachable.init

end CoinChange
